import Mathlib

/-!
Verification of the FlowSync Analytics & Aggregation Engine.

This file gives a shallow embedding of the two components of the engine:

* the Period Bucketizer `getSalesByPeriod`
  (src/client/src/components/reports/sales-by-period.tsx), and
* the Metric Aggregator `getDashboardStats` / `getDealsByStage`
  (src/server/storage.ts),

and proves or refutes the frozen claims about them.

JavaScript `Date` values are modelled by calendar fields (year, zero-based
month, one-based day of month, milliseconds within the day).  The source only
compares dates with `<=` / `>=` / `<`; for calendar-normalized dates that
comparison agrees with the lexicographic order on the fields, which we realise
through the injective linear key `JSDate.key`.  JavaScript numbers are
modelled exactly by rationals; the claims under study concern guard branches
and integer counts, not binary floating-point rounding.
-/

namespace FlowSync

/-- Model of a JavaScript `Date`: calendar year, zero-based month (0–11 when
normalized), one-based day of month, and milliseconds within the day. -/
structure JSDate where
  year : Int
  month : Int
  day : Int
  ms : Int
  deriving Repr, DecidableEq

/-- Milliseconds in one day. -/
def msPerDay : Int := 86400000

/-- Gregorian leap-year test (as JavaScript `Date` implements it). -/
def isLeap (y : Int) : Bool :=
  (y % 4 == 0 && y % 100 != 0) || y % 400 == 0

/-- Number of days in month `m` (zero-based) of year `y`. -/
def daysInMonth (y m : Int) : Int :=
  if m = 1 then (if isLeap y then 29 else 28)
  else if m = 3 ∨ m = 5 ∨ m = 8 ∨ m = 10 then 30
  else 31

/-- Day-of-month normalization as JavaScript `Date` performs it: a day value
outside `[1, daysInMonth]` is folded into the neighbouring months.  The fuel
bounds the number of month borrows/carries; every day value produced by the
source lies within 100 months of the current one. -/
def normDay (fuel : Nat) (y m d ms : Int) : JSDate :=
  match fuel with
  | 0 => ⟨y, m, d, ms⟩
  | fuel' + 1 =>
    if d < 1 then
      let y' := if m = 0 then y - 1 else y
      let m' := if m = 0 then 11 else m - 1
      normDay fuel' y' m' (d + daysInMonth y' m') ms
    else if daysInMonth y m < d then
      let y' := if m = 11 then y + 1 else y
      let m' := if m = 11 then 0 else m + 1
      normDay fuel' y' m' (d - daysInMonth y m) ms
    else ⟨y, m, d, ms⟩

/-- Model of `new Date(y, m, d)` (time-of-day zero): the month is folded into the year
by floored division, then the day is normalized. -/
def mkDate (y m d : Int) : JSDate :=
  normDay 100 (y + m / 12) (m % 12) d 0

/-- Model of `date.setMonth(v)`: replaces the month (folding into the year), keeps the
day of month and time of day, then normalizes the day. -/
def JSDate.setMonth (dt : JSDate) (v : Int) : JSDate :=
  normDay 100 (dt.year + v / 12) (v % 12) dt.day dt.ms

/-- Model of `date.setDate(v)`: replaces the day of month (possibly ≤ 0 or past the end
of the month) and normalizes. -/
def JSDate.setDate (dt : JSDate) (v : Int) : JSDate :=
  normDay 100 dt.year dt.month v dt.ms

/-- Model of `date.setHours(0,0,0,0)`: zero the time of day. -/
def JSDate.atMidnight (dt : JSDate) : JSDate :=
  { dt with ms := 0 }

/-- Injective linear key realising chronological order on calendar-normalized
dates (month in `[0,12)`, day in `[1,32)`, ms in `[0, msPerDay)`): comparing
keys agrees with comparing JavaScript millisecond timestamps. -/
def JSDate.key (dt : JSDate) : Int :=
  ((dt.year * 12 + dt.month) * 32 + dt.day) * msPerDay + dt.ms

/-- A calendar-normalized date: the only dates the source ever compares. -/
def JSDate.Valid (dt : JSDate) : Prop :=
  0 ≤ dt.month ∧ dt.month < 12 ∧ 1 ≤ dt.day ∧ dt.day ≤ daysInMonth dt.year dt.month
    ∧ 0 ≤ dt.ms ∧ dt.ms < msPerDay

instance (dt : JSDate) : Decidable dt.Valid := by
  unfold JSDate.Valid; infer_instance

/-- English short month name, as `toLocaleString('default', \x7bmonth: 'short'\x7d)`
renders a zero-based month in the default locale. -/
def monthShort (m : Int) : String :=
  if m = 0 then "Jan" else if m = 1 then "Feb" else if m = 2 then "Mar"
  else if m = 3 then "Apr" else if m = 4 then "May" else if m = 5 then "Jun"
  else if m = 6 then "Jul" else if m = 7 then "Aug" else if m = 8 then "Sep"
  else if m = 9 then "Oct" else if m = 10 then "Nov" else "Dec"

/-- A deal as the client component reads it: `createdAt` may be absent (the
code guards `if (!deal.createdAt) return;`), `value` may be null
(`Number(deal.value || 0)`). -/
structure Deal where
  createdAt : Option JSDate
  value : Option ℚ
  deriving Repr, DecidableEq

/-- The mutable per-bucket record of `getSalesByPeriod`. -/
structure PeriodData where
  name : String
  startDate : JSDate
  endDate : JSDate
  value : ℚ
  count : Nat
  deriving Repr, DecidableEq

/-- The cleaned-up row returned to the chart/table. -/
structure PeriodResult where
  name : String
  value : ℚ
  count : Nat
  deriving Repr, DecidableEq

/-- Model of `Math.round(x * 100) / 100` (ties round up, as `Math.round` does). -/
def jsRound2 (q : ℚ) : ℚ := (⌊q * 100 + 1/2⌋ : ℚ) / 100

/-- Bucket generation of `getSalesByPeriod`: the four granularity branches of
the source, translated loop body by loop body.  A loop `for i = k down to 0`
becomes a map over `j = 0..k` with `i = k - j`.  An unrecognized granularity
takes no branch and leaves the bucket list empty. -/
def genPeriods (period : String) (now : JSDate) : List PeriodData :=
  if period = "weekly" then
    (List.range 8).map (fun j =>
      let i : Int := 7 - Int.ofNat j
      { name := "Week " ++ toString (8 - i),
        startDate := now.setDate (now.day - (i * 7 + 7)),
        endDate := now.setDate (now.day - i * 7),
        value := 0, count := 0 })
  else if period = "monthly" then
    (List.range 6).map (fun j =>
      let i : Int := 5 - Int.ofNat j
      let month := now.setMonth (now.month - i)
      { name := monthShort month.month,
        startDate := mkDate month.year month.month 1,
        endDate := mkDate month.year (month.month + 1) 0,
        value := 0, count := 0 })
  else if period = "quarterly" then
    (List.range 4).map (fun j =>
      let i : Int := 3 - Int.ofNat j
      let quarter := (now.month - i * 3) / 3 + 1
      let year := now.year - (if quarter < 1 then 1 else 0)
      let adjustedQuarter := if quarter < 1 then quarter + 4 else quarter
      { name := "Q" ++ toString adjustedQuarter ++ " " ++ toString year,
        startDate := mkDate year ((adjustedQuarter - 1) * 3) 1,
        endDate := mkDate year (adjustedQuarter * 3) 0,
        value := 0, count := 0 })
  else if period = "yearly" then
    (List.range 5).map (fun j =>
      let i : Int := 4 - Int.ofNat j
      let year := now.year - i
      { name := toString year,
        startDate := mkDate year 0 1,
        endDate := mkDate year 11 31,
        value := 0, count := 0 })
  else []

/-- The membership test of the aggregation loop:
`dealDate >= p.startDate && dealDate <= p.endDate`. -/
def inBucket (p : PeriodData) (d : JSDate) : Prop :=
  p.startDate.key ≤ d.key ∧ d.key ≤ p.endDate.key

instance (p : PeriodData) (d : JSDate) : Decidable (inBucket p d) := by
  unfold inBucket; infer_instance

/-- One iteration of the outer aggregation loop: a deal with a null
`createdAt` is skipped; otherwise every bucket whose `[startDate, endDate]`
range contains the deal date accumulates the deal's value and increments its
count. -/
def applyDeal (ps : List PeriodData) (deal : Deal) : List PeriodData :=
  match deal.createdAt with
  | none => ps
  | some d => ps.map (fun p =>
      if inBucket p d then
        { p with value := p.value + deal.value.getD 0, count := p.count + 1 }
      else p)

/-- The aggregation loop of `getSalesByPeriod` over all deals. -/
def aggregate (periods : List PeriodData) (deals : List Deal) : List PeriodData :=
  deals.foldl applyDeal periods

/-- The Period Bucketizer `getSalesByPeriod` of
src/client/src/components/reports/sales-by-period.tsx, with the component
state (selected period, fetched deals) and the clock as explicit arguments:
early-returns `[]` when the deal set is empty or absent, otherwise generates
buckets, aggregates, and rounds the values for display. -/
def getSalesByPeriod (period : String) (now : JSDate) (deals : List Deal) :
    List PeriodResult :=
  if deals.isEmpty then []
  else
    (aggregate (genPeriods period now) deals).map (fun p =>
      { name := p.name, value := jsRound2 p.value, count := p.count })

/-! ## Server-side Metric Aggregator (src/server/storage.ts) -/

/-- A customer row.  `created_at` is `notNull` with `defaultNow()` in the
schema, so it is always present. -/
structure Customer where
  createdAt : JSDate
  deriving Repr, DecidableEq

/-- A deal row as the server reads it: `stage` is `notNull`, `value` is a
nullable double with default 0, `created_at` is `notNull`. -/
structure SDeal where
  stage : String
  value : Option ℚ
  createdAt : JSDate
  deriving Repr, DecidableEq

/-- A meeting row: `start_time` is `notNull`, `status` is nullable text with
default `'scheduled'`, `created_at` is `notNull`. -/
structure Meeting where
  startTime : JSDate
  status : Option String
  createdAt : JSDate
  deriving Repr, DecidableEq

/-- A task row: `due_date` and `status` are nullable.  SQL three-valued logic
makes every comparison against a NULL column false for filtering purposes. -/
structure STask where
  status : Option String
  dueDate : Option JSDate
  deriving Repr, DecidableEq

/-- The relational store the aggregation queries read. -/
structure Store where
  customers : List Customer
  deals : List SDeal
  meetings : List Meeting
  tasks : List STask
  deriving Repr, DecidableEq

/-- The record returned by `getDashboardStats`. -/
structure DashboardStats where
  customerCount : Nat
  customerGrowth : ℚ
  activeDeals : Nat
  dealChange : ℚ
  upcomingMeetings : Nat
  meetingChange : ℚ
  tasksDueToday : Nat
  totalTasks : Nat
  taskCompletion : ℚ
  totalSales : ℚ
  avgDealSize : ℚ
  winRate : ℚ
  customerRetentionRate : ℚ
  deriving Repr, DecidableEq

/-- Model of `x.toFixed(1)` re-parsed by `parseFloat`: round to one decimal place,
ties toward the larger candidate as the ECMAScript `toFixed` spec picks. -/
def toFixed1 (q : ℚ) : ℚ := (⌊q * 10 + 1/2⌋ : ℚ) / 10

/-- Model of `x.toFixed(2)` re-parsed by `parseFloat`. -/
def toFixed2 (q : ℚ) : ℚ := (⌊q * 100 + 1/2⌋ : ℚ) / 100

/-- The `WHERE createdAt >= d` customer count (the filter the code uses for
the current month: no upper bound). -/
def customersSince (d : JSDate) (cs : List Customer) : Nat :=
  cs.countP (fun c => decide (d.key ≤ c.createdAt.key))

/-- The `WHERE a <= createdAt AND createdAt <= b` customer count. -/
def customersBetween (a b : JSDate) (cs : List Customer) : Nat :=
  cs.countP (fun c => decide (a.key ≤ c.createdAt.key ∧ c.createdAt.key ≤ b.key))

/-- The body of `getDashboardStats`, with its two clock reads as explicit
arguments: `now` is the `new Date()` captured for the month-over-month
comparisons and upcoming meetings, and `now2` is the second `new Date()`
captured later for the tasks-due-today window (`const todayDate = new
Date()`).  Each SQL count/sum is translated to the corresponding list
aggregation. -/
def dashboardCompute (now now2 : JSDate) (s : Store) : DashboardStats :=
  let customerCount := s.customers.length
  let totalSales : ℚ := (s.deals.map (fun d => d.value.getD 0)).sum
  let totalDeals := s.deals.length
  let avgDealSize : ℚ := if totalDeals = 0 then 0 else totalSales / totalDeals
  let wonDeals := s.deals.countP (fun d => d.stage == "closed_won")
  let winRate : ℚ :=
    if totalDeals = 0 then 0 else ((wonDeals : ℚ) / totalDeals) * 100
  let firstDayCurrentMonth := mkDate now.year now.month 1
  let firstDayPreviousMonth := mkDate now.year (now.month - 1) 1
  let lastDayPreviousMonth := mkDate now.year now.month 0
  let currentCount := customersSince firstDayCurrentMonth s.customers
  let previousCount :=
    customersBetween firstDayPreviousMonth lastDayPreviousMonth s.customers
  let customerGrowth : ℚ :=
    if previousCount = 0 then 0
    else (((currentCount : ℚ) - previousCount) / previousCount) * 100
  let endCustomers := customerCount
  let newCustomers := currentCount
  let startingCustomers : Int := (endCustomers : Int) - newCustomers
  let customerRetentionRate : ℚ :=
    if startingCustomers = 0 then 0
    else (((endCustomers : ℚ) - newCustomers) / (startingCustomers : ℚ)) * 100
  let activeDeals := s.deals.countP (fun d =>
    d.stage == "lead" || d.stage == "qualification" ||
    d.stage == "proposal" || d.stage == "negotiation")
  let currentDealCount := s.deals.countP
    (fun d => decide (firstDayCurrentMonth.key ≤ d.createdAt.key))
  let previousDealCount := s.deals.countP
    (fun d => decide (firstDayPreviousMonth.key ≤ d.createdAt.key ∧
      d.createdAt.key ≤ lastDayPreviousMonth.key))
  let dealChange : ℚ :=
    if previousDealCount = 0 then 0
    else (((currentDealCount : ℚ) - previousDealCount) / previousDealCount) * 100
  let upcomingMeetings := s.meetings.countP (fun m =>
    decide (now.key ≤ m.startTime.key) && (m.status == some "scheduled"))
  let currentMeetingCount := s.meetings.countP
    (fun m => decide (firstDayCurrentMonth.key ≤ m.createdAt.key))
  let previousMeetingCount := s.meetings.countP
    (fun m => decide (firstDayPreviousMonth.key ≤ m.createdAt.key ∧
      m.createdAt.key ≤ lastDayPreviousMonth.key))
  let meetingChange : ℚ :=
    if previousMeetingCount = 0 then 0
    else (((currentMeetingCount : ℚ) - previousMeetingCount) / previousMeetingCount) * 100
  let todayDate := now2.atMidnight
  let tomorrowDate := todayDate.setDate (todayDate.day + 1)
  let tasksDueToday := s.tasks.countP (fun t =>
    match t.dueDate, t.status with
    | some dd, some st =>
        decide (todayDate.key ≤ dd.key ∧ dd.key < tomorrowDate.key ∧
          st ≠ "completed" ∧ st ≠ "cancelled")
    | _, _ => false)
  let completedTasks := s.tasks.countP (fun t => t.status == some "completed")
  let totalTasks := s.tasks.length
  let taskCompletion : ℚ :=
    if totalTasks = 0 then 0 else ((completedTasks : ℚ) / totalTasks) * 100
  { customerCount := customerCount,
    customerGrowth := toFixed1 customerGrowth,
    activeDeals := activeDeals,
    dealChange := toFixed1 dealChange,
    upcomingMeetings := upcomingMeetings,
    meetingChange := toFixed1 meetingChange,
    tasksDueToday := tasksDueToday,
    totalTasks := totalTasks,
    taskCompletion := toFixed1 taskCompletion,
    totalSales := toFixed2 totalSales,
    avgDealSize := toFixed2 avgDealSize,
    winRate := toFixed1 winRate,
    customerRetentionRate := toFixed1 customerRetentionRate }

/-- The aggregator `getDashboardStats` of src/server/storage.ts.  The function calls
`new Date()` at two program points; `clock n` is the value returned by the
`(n+1)`-st clock read. -/
def getDashboardStats (clock : Nat → JSDate) (s : Store) : DashboardStats :=
  dashboardCompute (clock 0) (clock 1) s

/-- One row of the `getDealsByStage` GROUP BY result. -/
structure StageRow where
  stage : String
  count : Nat
  totalValue : ℚ
  deriving Repr, DecidableEq

/-- The grouping query `getDealsByStage` of src/server/storage.ts: a SQL-style GROUP BY over the
deal rows — one output row per stage value occurring in the data, counting the
rows of the group and summing their (null-coalesced) values. -/
def getDealsByStage (ds : List SDeal) : List StageRow :=
  (ds.map (fun d => d.stage)).dedup.map (fun st =>
    let group := ds.filter (fun d => d.stage == st)
    { stage := st,
      count := group.length,
      totalValue := (group.map (fun d => d.value.getD 0)).sum })

/-- The spec's current-month customer count: customers created in
`[firstDayOfCurrentMonth, now)` (half-open at `now`).  Stated from the spec's
words for comparison with the code's count, which has no upper bound. -/
def specCurrentMonthCustomers (now : JSDate) (cs : List Customer) : Nat :=
  cs.countP (fun c => decide ((mkDate now.year now.month 1).key ≤ c.createdAt.key ∧
    c.createdAt.key < now.key))

/-- The spec's previous-month customer count: customers created in
`[firstDayOfPreviousMonth, lastDayOfPreviousMonth]`, the endpoints being the
Date values of those names (which is also exactly the code's filter). -/
def specPreviousMonthCustomers (now : JSDate) (cs : List Customer) : Nat :=
  customersBetween (mkDate now.year (now.month - 1) 1) (mkDate now.year now.month 0) cs

/-- The monthly bucket the source generates for the linear month value `v`
(months counted from January of year `y`): the calendar month
`(y + v/12, v%12)`, spanning its first day at midnight through its last day
at midnight. -/
def monthlyBucket (y v : Int) : PeriodData :=
  { name := monthShort (v % 12),
    startDate := ⟨y + v / 12, v % 12, 1, 0⟩,
    endDate := ⟨y + v / 12, v % 12, daysInMonth (y + v / 12) (v % 12), 0⟩,
    value := 0, count := 0 }

/-- Total of the bucket counts. -/
def sumCounts (l : List PeriodData) : Nat := (l.map (fun p => p.count)).sum

/-- How many buckets of `ps` a deal falls into (zero for a null `createdAt`). -/
def dealHits (ps : List PeriodData) (deal : Deal) : Nat :=
  match deal.createdAt with
  | none => 0
  | some d => ps.countP (fun p => decide (inBucket p d))

/-- A constant clock (every read returns 2025-06-15 12:00). -/
def clockA : Nat → JSDate := fun _ => ⟨2025, 5, 15, 43200000⟩

/-- A clock agreeing with `clockA` on the first read but not the second. -/
def clockB : Nat → JSDate := fun n =>
  if n = 0 then ⟨2025, 5, 15, 43200000⟩ else ⟨2025, 5, 20, 0⟩

/-- A clock agreeing with `clockA` on the first two reads only. -/
def clockC : Nat → JSDate := fun n =>
  if n ≤ 1 then ⟨2025, 5, 15, 43200000⟩ else ⟨2030, 0, 1, 0⟩

/-- A store holding a single pending task due 2025-06-15. -/
def storeOneTask : Store :=
  Store.mk [] [] [] [STask.mk (some "pending") (some ⟨2025, 5, 15, 0⟩)]

/-- A store holding a single customer created 2024-01-10, long before the
months `clockA` compares. -/
def storeOldCustomer : Store :=
  Store.mk [Customer.mk ⟨2024, 0, 10, 0⟩] [] [] []

/-! ## Date arithmetic lemmas -/

theorem daysInMonth_ge (y m : Int) : 28 ≤ daysInMonth y m := by
  unfold daysInMonth
  split
  · split <;> norm_num
  · split <;> norm_num

theorem daysInMonth_le (y m : Int) : daysInMonth y m ≤ 31 := by
  unfold daysInMonth
  split
  · split <;> norm_num
  · split <;> norm_num

theorem normDay_in_bounds (fuel : Nat) (y m d ms : Int)
    (h1 : 1 ≤ d) (h2 : d ≤ daysInMonth y m) :
    normDay (fuel + 1) y m d ms = ⟨y, m, d, ms⟩ := by
  simp only [normDay]
  rw [if_neg (by omega), if_neg (not_lt.mpr h2)]

theorem normDay_borrow (fuel : Nat) (y m d ms : Int) (h : d < 1) :
    normDay (fuel + 1) y m d ms =
      normDay fuel (if m = 0 then y - 1 else y) (if m = 0 then 11 else m - 1)
        (d + daysInMonth (if m = 0 then y - 1 else y) (if m = 0 then 11 else m - 1))
        ms := by
  simp only [normDay]
  rw [if_pos h]

theorem mkDate_one (y m : Int) (h0 : 0 ≤ m) (h1 : m < 12) :
    mkDate y m 1 = ⟨y, m, 1, 0⟩ := by
  unfold mkDate
  rw [Int.ediv_eq_zero_of_lt h0 h1, Int.emod_eq_of_lt h0 h1, add_zero]
  rw [(by norm_num : (100 : Nat) = 99 + 1)]
  exact normDay_in_bounds 99 y m 1 0 le_rfl (by linarith [daysInMonth_ge y m])

theorem mkDate_last (y m : Int) (h0 : 0 ≤ m) (h1 : m < 12) :
    mkDate y (m + 1) 0 = ⟨y, m, daysInMonth y m, 0⟩ := by
  unfold mkDate
  by_cases hm : m = 11
  · subst hm
    rw [(by decide : ((11 : Int) + 1) / 12 = 1),
      (by decide : ((11 : Int) + 1) % 12 = 0)]
    rw [(by norm_num : (100 : Nat) = 99 + 1), normDay_borrow 99 _ _ _ _ (by norm_num)]
    rw [if_pos rfl, if_pos rfl]
    have hy : y + 1 - 1 = y := by ring
    rw [hy, zero_add, (by norm_num : (99 : Nat) = 98 + 1)]
    exact normDay_in_bounds 98 y 11 _ 0 (by linarith [daysInMonth_ge y 11]) le_rfl
  · have hlt : m + 1 < 12 := by omega
    have hge : (0 : Int) ≤ m + 1 := by omega
    rw [Int.ediv_eq_zero_of_lt hge hlt, Int.emod_eq_of_lt hge hlt, add_zero]
    rw [(by norm_num : (100 : Nat) = 99 + 1), normDay_borrow 99 _ _ _ _ (by norm_num)]
    rw [if_neg (by omega), if_neg (by omega)]
    have hmm : m + 1 - 1 = m := by ring
    rw [hmm, zero_add, (by norm_num : (99 : Nat) = 98 + 1)]
    exact normDay_in_bounds 98 y m _ 0 (by linarith [daysInMonth_ge y m]) le_rfl

theorem setMonth_of_day_le (now : JSDate) (v : Int)
    (h1 : 1 ≤ now.day) (h2 : now.day ≤ 28) :
    now.setMonth v = ⟨now.year + v / 12, v % 12, now.day, now.ms⟩ := by
  unfold JSDate.setMonth
  rw [(by norm_num : (100 : Nat) = 99 + 1)]
  exact normDay_in_bounds 99 _ _ _ _ h1
    (by linarith [daysInMonth_ge (now.year + v / 12) (v % 12)])

/-! ## The monthly bucket list -/

/-- With a day of month at most 28 (so `setMonth` never overflows), the six
monthly buckets are those of the six calendar months ending at `now`'s
month, oldest first. -/
theorem genPeriods_monthly_eq (now : JSDate) (h1 : 1 ≤ now.day) (h2 : now.day ≤ 28) :
    genPeriods "monthly" now =
      (List.range 6).map (fun j => monthlyBucket now.year (now.month - 5 + Int.ofNat j)) := by
  unfold genPeriods
  rw [if_neg (by decide), if_pos rfl]
  apply List.map_congr_left
  intro j _
  have hv : now.month - (5 - Int.ofNat j) = now.month - 5 + Int.ofNat j := by ring
  simp only [hv, setMonth_of_day_le now _ h1 h2]
  have e0 : 0 ≤ (now.month - 5 + Int.ofNat j) % 12 :=
    Int.emod_nonneg _ (by norm_num)
  have e1 : (now.month - 5 + Int.ofNat j) % 12 < 12 :=
    Int.emod_lt_of_pos _ (by norm_num)
  rw [mkDate_one _ _ e0 e1, mkDate_last _ _ e0 e1]
  rfl

/-- A valid date lying in a monthly bucket's range belongs to that bucket's
calendar month. -/
theorem month_eq_of_inBucket {y v : Int} {d : JSDate} (hd : d.Valid)
    (h : inBucket (monthlyBucket y v) d) :
    d.year = y + v / 12 ∧ d.month = v % 12 := by
  obtain ⟨hm0, hm1, hd1, hd2, hms0, hms1⟩ := hd
  obtain ⟨ha, hb⟩ := h
  simp only [monthlyBucket, inBucket, JSDate.key, msPerDay] at ha hb
  have g1 := daysInMonth_ge (y + v / 12) (v % 12)
  have g2 := daysInMonth_le (y + v / 12) (v % 12)
  have g3 := daysInMonth_le d.year d.month
  simp only [msPerDay] at hms1
  omega

/-- A valid date lies in at most one monthly bucket. -/
theorem inBucket_unique {y v₁ v₂ : Int} {d : JSDate} (hd : d.Valid)
    (h₁ : inBucket (monthlyBucket y v₁) d) (h₂ : inBucket (monthlyBucket y v₂) d) :
    v₁ = v₂ := by
  obtain ⟨a1, b1⟩ := month_eq_of_inBucket hd h₁
  obtain ⟨a2, b2⟩ := month_eq_of_inBucket hd h₂
  omega

/-- The bucket's `endDate` (its last day at midnight) lies in the bucket. -/
theorem endDate_inBucket (y v : Int) :
    inBucket (monthlyBucket y v) (monthlyBucket y v).endDate := by
  simp only [monthlyBucket, inBucket, JSDate.key, msPerDay]
  have g1 := daysInMonth_ge (y + v / 12) (v % 12)
  omega

/-- The bucket's `endDate` is a calendar-normalized date. -/
theorem endDate_valid (y v : Int) : (monthlyBucket y v).endDate.Valid := by
  simp only [monthlyBucket, JSDate.Valid, msPerDay]
  have e0 : 0 ≤ v % 12 := Int.emod_nonneg _ (by norm_num)
  have e1 : v % 12 < 12 := Int.emod_lt_of_pos _ (by norm_num)
  have g1 := daysInMonth_ge (y + v / 12) (v % 12)
  omega

/-- The map `monthlyBucket y` is injective in the linear month value. -/
theorem monthlyBucket_inj {y v₁ v₂ : Int}
    (h : monthlyBucket y v₁ = monthlyBucket y v₂) : v₁ = v₂ := by
  have hy := congrArg (fun b => b.startDate.year) h
  have hm := congrArg (fun b => b.startDate.month) h
  simp only [monthlyBucket] at hy hm
  omega

/-- A date on a bucket's last day but strictly after midnight lies in no
monthly bucket at all. -/
theorem late_endDate_notInBucket (y v w t : Int) (h0 : 0 < t) (h1 : t < msPerDay) :
    ¬ inBucket (monthlyBucket y w)
        ⟨(monthlyBucket y v).endDate.year, (monthlyBucket y v).endDate.month,
          (monthlyBucket y v).endDate.day, t⟩ := by
  intro hin
  have hd : (JSDate.mk (monthlyBucket y v).endDate.year (monthlyBucket y v).endDate.month
      (monthlyBucket y v).endDate.day t).Valid := by
    have hv := endDate_valid y v
    obtain ⟨a, b, c, d, _, _⟩ := hv
    exact ⟨a, b, c, d, Int.le_of_lt h0, h1⟩
  obtain ⟨hy, hm⟩ := month_eq_of_inBucket hd hin
  simp only [monthlyBucket] at hy hm
  have hw : w = v := by omega
  subst hw
  obtain ⟨_, hb⟩ := hin
  simp only [monthlyBucket, inBucket, JSDate.key, msPerDay] at hb
  omega

/-! ## Counting machinery for the aggregation loop -/

theorem sumCounts_nil : sumCounts [] = 0 := rfl

theorem sumCounts_cons (p : PeriodData) (l : List PeriodData) :
    sumCounts (p :: l) = p.count + sumCounts l := by
  simp [sumCounts]

theorem sumCounts_applyDeal (ps : List PeriodData) (deal : Deal) :
    sumCounts (applyDeal ps deal) = sumCounts ps + dealHits ps deal := by
  cases hc : deal.createdAt with
  | none => simp [applyDeal, dealHits, hc]
  | some d =>
    simp only [applyDeal, dealHits, hc]
    induction ps with
    | nil => rfl
    | cons p ps ih =>
      simp only [List.map_cons, List.countP_cons, sumCounts_cons]
      by_cases h : inBucket p d
      · simp only [if_pos h, if_pos (decide_eq_true h), sumCounts_cons, ih]
        omega
      · simp only [if_neg h, if_neg (fun hh => h (of_decide_eq_true hh)),
          sumCounts_cons, ih]
        omega

/-- Updating bucket values/counts never changes which buckets a date falls
into, so the hit count of a deal is stable under processing other deals. -/
theorem dealHits_applyDeal (ps : List PeriodData) (deal deal' : Deal) :
    dealHits (applyDeal ps deal') deal = dealHits ps deal := by
  cases hc : deal.createdAt with
  | none => simp [dealHits, hc]
  | some d =>
    cases hc' : deal'.createdAt with
    | none => simp [dealHits, applyDeal, hc']
    | some d' =>
      simp only [dealHits, hc, applyDeal, hc', List.countP_map]
      apply List.countP_congr
      intro p _
      simp only [Function.comp_apply]
      split
      · exact Iff.rfl
      · exact Iff.rfl

theorem sumCounts_aggregate (periods : List PeriodData) (deals : List Deal) :
    sumCounts (aggregate periods deals) =
      sumCounts periods + (deals.map (dealHits periods)).sum := by
  induction deals generalizing periods with
  | nil => simp [aggregate]
  | cons deal rest ih =>
    simp only [aggregate, List.foldl_cons] at ih ⊢
    rw [ih (applyDeal periods deal), sumCounts_applyDeal, List.map_cons, List.sum_cons]
    have : rest.map (dealHits (applyDeal periods deal)) = rest.map (dealHits periods) :=
      List.map_congr_left (fun deal'' _ => dealHits_applyDeal periods deal'' deal)
    rw [this]
    omega

/-- A list without duplicates in which any two members satisfying `p` are
equal has at most one member satisfying `p`. -/
theorem countP_le_one {α : Type} (l : List α) (p : α → Bool) (hl : l.Nodup)
    (h : ∀ a ∈ l, ∀ b ∈ l, p a = true → p b = true → a = b) :
    l.countP p ≤ 1 := by
  induction l with
  | nil => simp
  | cons a l ih =>
    rw [List.countP_cons]
    rcases List.nodup_cons.mp hl with ⟨ha, hl'⟩
    by_cases hp : p a = true
    · have hz : l.countP p = 0 := by
        rw [List.countP_eq_zero]
        intro b hb hpb
        exact ha ((h b (List.mem_cons_of_mem a hb) a (List.mem_cons_self a l) hpb hp) ▸ hb)
      rw [hz, if_pos hp]
    · have hle := ih hl' (fun x hx y hy hpx hpy =>
        h x (List.mem_cons_of_mem a hx) y (List.mem_cons_of_mem a hy) hpx hpy)
      rw [if_neg hp]
      omega

/-- The six monthly buckets are pairwise distinct. -/
theorem genPeriods_monthly_nodup (now : JSDate) (h1 : 1 ≤ now.day) (h2 : now.day ≤ 28) :
    (genPeriods "monthly" now).Nodup := by
  rw [genPeriods_monthly_eq now h1 h2]
  apply List.Nodup.map_on
  · intro x _ y _ hxy
    have hv := monthlyBucket_inj hxy
    simp only [Int.ofNat_eq_coe] at hv
    omega
  · exact List.nodup_range 6

/-- A deal with a valid date hits at most one monthly bucket. -/
theorem dealHits_monthly_le_one (now : JSDate) (h1 : 1 ≤ now.day) (h2 : now.day ≤ 28)
    (deal : Deal) (hv : ∀ d, deal.createdAt = some d → d.Valid) :
    dealHits (genPeriods "monthly" now) deal ≤ 1 := by
  cases hc : deal.createdAt with
  | none => simp [dealHits, hc]
  | some d =>
    simp only [dealHits, hc]
    apply countP_le_one _ _ (genPeriods_monthly_nodup now h1 h2)
    intro a ha b hb hpa hpb
    rw [genPeriods_monthly_eq now h1 h2] at ha hb
    obtain ⟨ja, _, rfl⟩ := List.mem_map.mp ha
    obtain ⟨jb, _, rfl⟩ := List.mem_map.mp hb
    have hda : inBucket (monthlyBucket now.year (now.month - 5 + Int.ofNat ja)) d :=
      of_decide_eq_true hpa
    have hdb : inBucket (monthlyBucket now.year (now.month - 5 + Int.ofNat jb)) d :=
      of_decide_eq_true hpb
    rw [inBucket_unique (hv d hc) hda hdb]

theorem sumCounts_map_zero {α : Type} (l : List α) (f : α → PeriodData)
    (h : ∀ a, (f a).count = 0) : sumCounts (l.map f) = 0 := by
  induction l with
  | nil => rfl
  | cons a l ih => rw [List.map_cons, sumCounts_cons, h, ih]

/-- Freshly generated buckets all carry a zero count. -/
theorem sumCounts_genPeriods (period : String) (now : JSDate) :
    sumCounts (genPeriods period now) = 0 := by
  unfold genPeriods
  split
  · exact sumCounts_map_zero _ _ (fun a => rfl)
  split
  · exact sumCounts_map_zero _ _ (fun a => rfl)
  split
  · exact sumCounts_map_zero _ _ (fun a => rfl)
  split
  · exact sumCounts_map_zero _ _ (fun a => rfl)
  · rfl

/-- The display clean-up map preserves the bucket counts. -/
theorem sum_counts_getSales (period : String) (now : JSDate) (deals : List Deal) :
    ((getSalesByPeriod period now deals).map (fun r => r.count)).sum =
      if deals.isEmpty then 0
      else sumCounts (aggregate (genPeriods period now) deals) := by
  unfold getSalesByPeriod
  split
  · rfl
  · rw [List.map_map, sumCounts]
    congr 1

/-- Over the monthly buckets, deal hits total at most one per deal carrying a
(valid) creation date. -/
theorem sum_dealHits_le (now : JSDate) (h1 : 1 ≤ now.day) (h2 : now.day ≤ 28)
    (deals : List Deal)
    (hv : ∀ deal ∈ deals, ∀ d, deal.createdAt = some d → d.Valid) :
    (deals.map (dealHits (genPeriods "monthly" now))).sum ≤
      deals.countP (fun deal => deal.createdAt.isSome) := by
  induction deals with
  | nil => simp
  | cons deal rest ih =>
    rw [List.map_cons, List.sum_cons, List.countP_cons]
    have hr := ih (fun dl hdl => hv dl (List.mem_cons_of_mem _ hdl))
    cases hc : deal.createdAt with
    | none =>
      have hz : dealHits (genPeriods "monthly" now) deal = 0 := by
        simp [dealHits, hc]
      simp only [hz, hc, Option.isSome_none]
      omega
    | some d =>
      have hone : dealHits (genPeriods "monthly" now) deal ≤ 1 :=
        dealHits_monthly_le_one now h1 h2 deal (hv deal (List.mem_cons_self _ _))
      simp only [hc, Option.isSome_some, if_true]
      omega

/-- Aggregating over an empty bucket list leaves it empty. -/
theorem aggregate_nil (deals : List Deal) : aggregate [] deals = [] := by
  induction deals with
  | nil => rfl
  | cons deal rest ih =>
    unfold aggregate at ih ⊢
    rw [List.foldl_cons]
    have hstep : applyDeal [] deal = [] := by
      unfold applyDeal
      cases deal.createdAt <;> rfl
    rw [hstep]
    exact ih

/-- The start keys of the monthly buckets increase with the linear month
value. -/
theorem monthlyBucket_key_lt (y : Int) {v w : Int} (h : v < w) :
    (monthlyBucket y v).startDate.key < (monthlyBucket y w).startDate.key := by
  simp only [monthlyBucket, JSDate.key, msPerDay]
  omega

/-! ## Claims about the Period Bucketizer -/

/-- C1, counterexample.  The claim says a deal created on a monthly bucket's
`endDate` day *at any time of day* is counted in that month's bucket.  With
`now` = 2025-01-15 00:00 the newest monthly bucket is January 2025 with
`endDate` = 2025-01-31 00:00 (midnight).  A deal created 2025-01-31 12:00 —
on the bucket's `endDate` day — is counted in *no* bucket: every returned
count is zero. -/
theorem c1_counterexample :
    (getSalesByPeriod "monthly" ⟨2025, 0, 15, 0⟩
        [{ createdAt := some ⟨2025, 0, 31, 43200000⟩, value := some 500 }]).map
      (fun r => r.count) = [0, 0, 0, 0, 0, 0] := by decide

/-- C1, amended.  A deal created exactly at a monthly bucket's `endDate`
instant — midnight (00:00:00.000) at the start of the last day of that
calendar month — is inside that bucket's `[startDate, endDate]` range and
inside no other monthly bucket (in particular not the following month's);
but a deal created at any strictly later time of that same last day lies in
no monthly bucket at all.  (Requires `now.day ≤ 28` so the generated months
are well formed; see C10.) -/
theorem c1_amended :
    ∀ now : JSDate, 1 ≤ now.day → now.day ≤ 28 →
      ∀ p ∈ genPeriods "monthly" now, ∀ q ∈ genPeriods "monthly" now,
        inBucket p p.endDate ∧
        (q ≠ p → ¬ inBucket q p.endDate) ∧
        (∀ t : Int, 0 < t → t < msPerDay →
          ¬ inBucket q ⟨p.endDate.year, p.endDate.month, p.endDate.day, t⟩) := by
  intro now h1 h2 p hp q hq
  rw [genPeriods_monthly_eq now h1 h2] at hp hq
  obtain ⟨jp, _, rfl⟩ := List.mem_map.mp hp
  obtain ⟨jq, _, rfl⟩ := List.mem_map.mp hq
  refine ⟨endDate_inBucket _ _, ?_, ?_⟩
  · intro hne hin
    have hd := endDate_valid now.year (now.month - 5 + Int.ofNat jp)
    obtain ⟨a1, b1⟩ := month_eq_of_inBucket hd hin
    simp only [monthlyBucket] at a1 b1
    have hjj : Int.ofNat jq = Int.ofNat jp := by
      simp only [Int.ofNat_eq_coe] at a1 b1 ⊢
      omega
    exact hne (by rw [hjj])
  · intro t h0 ht
    exact late_endDate_notInBucket _ _ _ t h0 ht

/-- C1, witness: the January 2025 bucket generated for `now` = 2025-01-15
contains its own `endDate` 2025-01-31 00:00. -/
theorem c1_amended_witness :
    inBucket (PeriodData.mk "Jan" ⟨2025, 0, 1, 0⟩ ⟨2025, 0, 31, 0⟩ 0 0)
      ⟨2025, 0, 31, 0⟩ :=
  (c1_amended ⟨2025, 0, 15, 0⟩ (by decide) (by decide)
    (PeriodData.mk "Jan" ⟨2025, 0, 1, 0⟩ ⟨2025, 0, 31, 0⟩ 0 0) (by decide)
    (PeriodData.mk "Jan" ⟨2025, 0, 1, 0⟩ ⟨2025, 0, 31, 0⟩ 0 0) (by decide)).1

/-- C2, counterexample.  The claim says an empty deal set yields the full
generated bucket sequence with all values zero.  In fact the code
early-returns before generating any buckets: the result is the empty list
even though the generator would produce six buckets. -/
theorem c2_counterexample :
    getSalesByPeriod "monthly" ⟨2025, 5, 15, 0⟩ [] = [] ∧
    (genPeriods "monthly" ⟨2025, 5, 15, 0⟩).length = 6 :=
  ⟨rfl, by decide⟩

/-- C2, amended.  For every granularity (valid or not) and every clock value,
an empty deal set yields the empty list — bucket generation is skipped
entirely — and never an error. -/
theorem c2_amended :
    ∀ (period : String) (now : JSDate), getSalesByPeriod period now [] = [] := by
  intro period now
  rfl

/-- C3, counterexample.  The claim says an unrecognized granularity signals
an `InvalidArgument` condition with no computation performed.  The code has
no error path at all: with granularity "daily" and a non-empty deal set it
runs the aggregation over an empty bucket list and returns the empty list as
an ordinary value. -/
theorem c3_counterexample :
    getSalesByPeriod "daily" ⟨2025, 5, 15, 0⟩
      [{ createdAt := some ⟨2025, 5, 10, 0⟩, value := some 100 }] = [] := by decide

/-- C3, amended.  For every granularity value other than the four enumerated
ones, `getSalesByPeriod` generates no buckets and returns the empty list as a
normal result, signaling no error condition. -/
theorem c3_amended :
    ∀ (period : String) (now : JSDate) (deals : List Deal),
      period ≠ "weekly" → period ≠ "monthly" → period ≠ "quarterly" →
      period ≠ "yearly" → getSalesByPeriod period now deals = [] := by
  intro period now deals h1 h2 h3 h4
  unfold getSalesByPeriod
  split
  · rfl
  · have hg : genPeriods period now = [] := by
      unfold genPeriods
      rw [if_neg h1, if_neg h2, if_neg h3, if_neg h4]
    rw [hg, aggregate_nil]
    rfl

/-- C3, witness: a concrete unrecognized granularity with a non-empty deal
set returns the empty list. -/
theorem c3_amended_witness :
    getSalesByPeriod "biweekly" ⟨2025, 5, 15, 0⟩
      [{ createdAt := none, value := none }] = [] :=
  c3_amended "biweekly" ⟨2025, 5, 15, 0⟩ _
    (by decide) (by decide) (by decide) (by decide)

/-- C5, counterexample.  The claim says bucket ranges are pairwise
non-overlapping and exhaustive for every granularity, so each deal is
counted in exactly one bucket.  For the weekly granularity consecutive
buckets share a boundary instant: with `now` = 2025-01-15 00:00, a single
deal created 2025-01-08 00:00 is counted in two buckets (sum of counts is 2
for one deal). -/
theorem c5_counterexample :
    (getSalesByPeriod "weekly" ⟨2025, 0, 15, 0⟩
        [{ createdAt := some ⟨2025, 0, 8, 0⟩, value := some 100 }]).map
      (fun r => r.count) = [0, 0, 0, 0, 0, 0, 1, 1] := by decide

/-- C5, amended.  For the monthly granularity (with `now.day ≤ 28`; see C10)
the bucket ranges are pairwise disjoint on calendar-normalized dates, so
every deal is counted in at most one bucket and the sum of the returned
counts is at most the number of deals with a non-null `createdAt`.
Exhaustiveness fails (see C1: dates on a month's last day after midnight lie
in no bucket) and for the weekly granularity boundary instants overlap. -/
theorem c5_amended :
    ∀ now : JSDate, 1 ≤ now.day → now.day ≤ 28 →
      (∀ p ∈ genPeriods "monthly" now, ∀ q ∈ genPeriods "monthly" now, p ≠ q →
        ∀ d : JSDate, d.Valid → ¬(inBucket p d ∧ inBucket q d)) ∧
      (∀ deals : List Deal,
        (∀ deal ∈ deals, ∀ d, deal.createdAt = some d → d.Valid) →
        ((getSalesByPeriod "monthly" now deals).map (fun r => r.count)).sum ≤
          deals.countP (fun deal => deal.createdAt.isSome)) := by
  intro now h1 h2
  constructor
  · rintro p hp q hq hne d hd ⟨hip, hiq⟩
    rw [genPeriods_monthly_eq now h1 h2] at hp hq
    obtain ⟨jp, _, rfl⟩ := List.mem_map.mp hp
    obtain ⟨jq, _, rfl⟩ := List.mem_map.mp hq
    exact hne (by rw [inBucket_unique hd hip hiq])
  · intro deals hv
    rw [sum_counts_getSales]
    split
    · exact Nat.zero_le _
    · rw [sumCounts_aggregate, sumCounts_genPeriods]
      simpa using sum_dealHits_le now h1 h2 deals hv

/-- C5, witness: for `now` = 2025-01-15 and a single deal on 2025-01-10,
the monthly counts sum to at most the number of dated deals. -/
theorem c5_amended_witness :
    ((getSalesByPeriod "monthly" ⟨2025, 0, 15, 0⟩
        [Deal.mk (some ⟨2025, 0, 10, 0⟩) (some 100)]).map
      (fun r => r.count)).sum ≤
      List.countP (fun deal : Deal => deal.createdAt.isSome)
        [Deal.mk (some ⟨2025, 0, 10, 0⟩) (some 100)] :=
  (c5_amended ⟨2025, 0, 15, 0⟩ (by decide) (by decide)).2
    [Deal.mk (some ⟨2025, 0, 10, 0⟩) (some 100)]
    (by intro deal hdeal d hd
        simp only [List.mem_singleton] at hdeal
        subst hdeal
        cases hd
        decide)

/-- C10.  For every `now` whose day of month is at most 28, the monthly
branch generates exactly six buckets, one per calendar month from five
months before `now`'s month through `now`'s month, oldest first (start keys
strictly increasing), each bucket's `startDate` being the first of its
month at midnight.  The day bound is necessary: for `now` = 2025-03-31 the
`setMonth` copy overflows the shorter target months and the generated
start dates repeat December 2024 and March 2025 instead of covering six
distinct months. -/
theorem c10_monthly_generation :
    (∀ now : JSDate, 1 ≤ now.day → now.day ≤ 28 →
      (genPeriods "monthly" now).length = 6 ∧
      (genPeriods "monthly" now).map (fun p => p.startDate) =
        (List.range 6).map (fun j =>
          (⟨now.year + (now.month - 5 + Int.ofNat j) / 12,
            (now.month - 5 + Int.ofNat j) % 12, 1, 0⟩ : JSDate)) ∧
      (genPeriods "monthly" now).Pairwise
        (fun p q => p.startDate.key < q.startDate.key)) ∧
    (genPeriods "monthly" ⟨2025, 2, 31, 0⟩).map (fun p => p.startDate) =
      [⟨2024, 9, 1, 0⟩, ⟨2024, 11, 1, 0⟩, ⟨2024, 11, 1, 0⟩,
       ⟨2025, 0, 1, 0⟩, ⟨2025, 2, 1, 0⟩, ⟨2025, 2, 1, 0⟩] := by
  constructor
  · intro now h1 h2
    rw [genPeriods_monthly_eq now h1 h2]
    refine ⟨by simp, ?_, ?_⟩
    · rw [List.map_map]
      apply List.map_congr_left
      intro j _
      rfl
    · rw [List.pairwise_map]
      apply (List.pairwise_lt_range 6).imp
      intro a b hab
      apply monthlyBucket_key_lt
      simp only [Int.ofNat_eq_coe]
      omega
  · decide

/-- C10, witness: for `now` = 2025-06-15 (day 15 ≤ 28) six buckets are
generated. -/
theorem c10_monthly_generation_witness :
    (genPeriods "monthly" ⟨2025, 5, 15, 0⟩).length = 6 :=
  (c10_monthly_generation.1 ⟨2025, 5, 15, 0⟩ (by decide) (by decide)).1

/-! ## Claims about the Metric Aggregator -/

theorem toFixed1_zero : toFixed1 0 = 0 := by
  have h : ⌊(0 : ℚ) * 10 + 1/2⌋ = 0 := by
    rw [Int.floor_eq_iff]
    norm_num
  unfold toFixed1
  rw [h]
  norm_num

theorem toFixed1_hundred : toFixed1 100 = 100 := by
  have h : ⌊(100 : ℚ) * 10 + 1/2⌋ = 1000 := by
    rw [Int.floor_eq_iff]
    norm_num
  unfold toFixed1
  rw [h]
  norm_num

theorem toFixed2_zero : toFixed2 0 = 0 := by
  have h : ⌊(0 : ℚ) * 100 + 1/2⌋ = 0 := by
    rw [Int.floor_eq_iff]
    norm_num
  unfold toFixed2
  rw [h]
  norm_num

/-- C4, counterexample.  The claim says the clock is read exactly once per
`getDashboardStats` request and every sub-metric uses that timestamp.  With
two clocks that agree on their first read but differ on the second, the
returned `tasksDueToday` differs — the tasks-due-today window is computed
from a second `new Date()` call, so the function does not depend on a single
clock read. -/
theorem c4_counterexample :
    clockA 0 = clockB 0 ∧
    (getDashboardStats clockA storeOneTask).tasksDueToday = 1 ∧
    (getDashboardStats clockB storeOneTask).tasksDueToday = 0 := by
  refine ⟨rfl, ?_, ?_⟩ <;> decide

/-- C4, amended.  `getDashboardStats` reads the clock exactly twice: the
result is determined by the first two clock reads, and every returned field
except `tasksDueToday` — in particular the customer/deal/meeting
month-over-month comparisons and the upcoming-meetings count — is determined
by the first read alone; `tasksDueToday` is evaluated against the second
read. -/
theorem c4_amended :
    ∀ (c₁ c₂ : Nat → JSDate) (s : Store),
      (c₁ 0 = c₂ 0 → c₁ 1 = c₂ 1 →
        getDashboardStats c₁ s = getDashboardStats c₂ s) ∧
      (c₁ 0 = c₂ 0 →
        (getDashboardStats c₁ s).customerCount = (getDashboardStats c₂ s).customerCount ∧
        (getDashboardStats c₁ s).customerGrowth = (getDashboardStats c₂ s).customerGrowth ∧
        (getDashboardStats c₁ s).activeDeals = (getDashboardStats c₂ s).activeDeals ∧
        (getDashboardStats c₁ s).dealChange = (getDashboardStats c₂ s).dealChange ∧
        (getDashboardStats c₁ s).upcomingMeetings = (getDashboardStats c₂ s).upcomingMeetings ∧
        (getDashboardStats c₁ s).meetingChange = (getDashboardStats c₂ s).meetingChange ∧
        (getDashboardStats c₁ s).totalTasks = (getDashboardStats c₂ s).totalTasks ∧
        (getDashboardStats c₁ s).taskCompletion = (getDashboardStats c₂ s).taskCompletion ∧
        (getDashboardStats c₁ s).totalSales = (getDashboardStats c₂ s).totalSales ∧
        (getDashboardStats c₁ s).avgDealSize = (getDashboardStats c₂ s).avgDealSize ∧
        (getDashboardStats c₁ s).winRate = (getDashboardStats c₂ s).winRate ∧
        (getDashboardStats c₁ s).customerRetentionRate =
          (getDashboardStats c₂ s).customerRetentionRate) := by
  intro c₁ c₂ s
  constructor
  · intro h0 h1
    unfold getDashboardStats
    rw [h0, h1]
  · intro h0
    unfold getDashboardStats
    rw [h0]
    exact ⟨rfl, rfl, rfl, rfl, rfl, rfl, rfl, rfl, rfl, rfl, rfl, rfl⟩

/-- C4, witness: two clocks agreeing on their first two reads produce
identical dashboards. -/
theorem c4_amended_witness :
    getDashboardStats clockA storeOneTask = getDashboardStats clockC storeOneTask :=
  (c4_amended clockA clockC storeOneTask).1 rfl rfl

/-- C6.  For every store in which each customer's `createdAt` precedes the
request time (always true for rows stamped by `defaultNow()`), the returned
`customerGrowth` equals `((current - previous) / previous) * 100` — rounded
to one decimal for display — where `current` counts customers created in
`[firstDayOfCurrentMonth, now)` and `previous` counts customers created in
`[firstDayOfPreviousMonth, lastDayOfPreviousMonth]`; and whenever `previous`
is zero the result is exactly `0`. -/
theorem c6_customer_growth :
    ∀ (clock : Nat → JSDate) (s : Store),
      (∀ c ∈ s.customers, c.createdAt.key < (clock 0).key) →
      (getDashboardStats clock s).customerGrowth =
        toFixed1 (if specPreviousMonthCustomers (clock 0) s.customers = 0 then 0
          else (((specCurrentMonthCustomers (clock 0) s.customers : ℚ) -
              specPreviousMonthCustomers (clock 0) s.customers) /
              specPreviousMonthCustomers (clock 0) s.customers) * 100) ∧
      (specPreviousMonthCustomers (clock 0) s.customers = 0 →
        (getDashboardStats clock s).customerGrowth = 0) := by
  intro clock s h
  have hcur : customersSince (mkDate (clock 0).year (clock 0).month 1) s.customers =
      specCurrentMonthCustomers (clock 0) s.customers := by
    unfold customersSince specCurrentMonthCustomers
    apply List.countP_congr
    intro c hc
    simp only [decide_eq_true_eq]
    exact ⟨fun hh => ⟨hh, h c hc⟩, fun hh => hh.1⟩
  have hfield : (getDashboardStats clock s).customerGrowth =
      toFixed1 (if specPreviousMonthCustomers (clock 0) s.customers = 0 then 0
        else (((customersSince (mkDate (clock 0).year (clock 0).month 1) s.customers : ℚ) -
            specPreviousMonthCustomers (clock 0) s.customers) /
            specPreviousMonthCustomers (clock 0) s.customers) * 100) := rfl
  constructor
  · rw [hfield, hcur]
  · intro hz
    rw [hfield, if_pos hz, toFixed1_zero]

/-- C6, witness: a store with one customer created before the previous
month — so both monthly windows are empty — reports zero growth. -/
theorem c6_customer_growth_witness :
    (getDashboardStats clockA storeOldCustomer).customerGrowth = 0 :=
  (c6_customer_growth clockA storeOldCustomer (by decide)).2 (by decide)

/-- C7.  Whenever the store holds no deals (`totalDeals = 0`), the
zero-denominator guards make `avgDealSize` and `winRate` exactly `0`; the
divisions `totalSales / totalDeals` and `wonDeals / totalDeals` sit in the
unreached branch of the guard. -/
theorem c7_zero_deals_guard :
    ∀ (clock : Nat → JSDate) (s : Store), s.deals.length = 0 →
      (getDashboardStats clock s).avgDealSize = 0 ∧
      (getDashboardStats clock s).winRate = 0 := by
  intro clock s h
  constructor
  · have hfield : (getDashboardStats clock s).avgDealSize =
        toFixed2 (if s.deals.length = 0 then 0
          else (s.deals.map (fun d => d.value.getD 0)).sum / (s.deals.length : ℚ)) := rfl
    rw [hfield, if_pos h, toFixed2_zero]
  · have hfield : (getDashboardStats clock s).winRate =
        toFixed1 (if s.deals.length = 0 then 0
          else ((s.deals.countP (fun d => d.stage == "closed_won") : ℚ) /
            (s.deals.length : ℚ)) * 100) := rfl
    rw [hfield, if_pos h, toFixed1_zero]

/-- C7, witness: the empty store reports `avgDealSize = 0` and
`winRate = 0`. -/
theorem c7_zero_deals_guard_witness :
    (getDashboardStats clockA (Store.mk [] [] [] [])).avgDealSize = 0 ∧
    (getDashboardStats clockA (Store.mk [] [] [] [])).winRate = 0 :=
  c7_zero_deals_guard clockA (Store.mk [] [] [] []) rfl

/-- C9.  The customer-retention computation defines
`startingCustomers = endCustomers - newCustomers` and then divides
`endCustomers - newCustomers` by it, so the ratio is `1` whenever the
denominator is nonzero: the returned `customerRetentionRate` is always
exactly `0` or exactly `100`. -/
theorem c9_retention_degenerate :
    ∀ (clock : Nat → JSDate) (s : Store),
      (getDashboardStats clock s).customerRetentionRate = 0 ∨
      (getDashboardStats clock s).customerRetentionRate = 100 := by
  intro clock s
  have hfield : (getDashboardStats clock s).customerRetentionRate =
      toFixed1 (if ((s.customers.length : Int) -
          customersSince (mkDate (clock 0).year (clock 0).month 1) s.customers) = 0 then 0
        else (((s.customers.length : ℚ) -
            customersSince (mkDate (clock 0).year (clock 0).month 1) s.customers) /
            (((s.customers.length : Int) -
              customersSince (mkDate (clock 0).year (clock 0).month 1) s.customers : Int) : ℚ)) *
            100) := rfl
  by_cases hz : ((s.customers.length : Int) -
      customersSince (mkDate (clock 0).year (clock 0).month 1) s.customers) = 0
  · left
    rw [hfield, if_pos hz, toFixed1_zero]
  · right
    rw [hfield, if_neg hz]
    have hcast : (((s.customers.length : Int) -
        customersSince (mkDate (clock 0).year (clock 0).month 1) s.customers : Int) : ℚ) =
        ((s.customers.length : ℚ) -
          customersSince (mkDate (clock 0).year (clock 0).month 1) s.customers) := by
      push_cast
      ring
    have hne : (((s.customers.length : Int) -
        customersSince (mkDate (clock 0).year (clock 0).month 1) s.customers : Int) : ℚ) ≠ 0 :=
      Int.cast_ne_zero.mpr hz
    rw [show (((s.customers.length : ℚ) -
        customersSince (mkDate (clock 0).year (clock 0).month 1) s.customers) /
        (((s.customers.length : Int) -
          customersSince (mkDate (clock 0).year (clock 0).month 1) s.customers : Int) : ℚ)) *
        100 = 100 from by rw [← hcast, div_self hne]; ring]
    exact toFixed1_hundred

/-- C8.  `getDealsByStage` is a GROUP BY over the existing deal rows: every
returned row counts a non-empty stage group (`count ≥ 1`), and the counts
sum to the total number of deals. -/
theorem c8_deals_by_stage :
    ∀ ds : List SDeal,
      ((getDealsByStage ds).map (fun r => r.count)).sum = ds.length ∧
      ∀ r ∈ getDealsByStage ds, 1 ≤ r.count := by
  intro ds
  constructor
  · have h1 : (getDealsByStage ds).map (fun r => r.count) =
        (ds.map (fun d => d.stage)).dedup.map
          (fun st => (ds.map (fun d => d.stage)).count st) := by
      unfold getDealsByStage
      rw [List.map_map]
      apply List.map_congr_left
      intro st _
      show (ds.filter (fun d => d.stage == st)).length =
        (ds.map (fun d => d.stage)).count st
      rw [← List.countP_eq_length_filter, List.count, List.countP_map]
      rfl
    rw [h1, List.sum_map_count_dedup_eq_length, List.length_map]
  · intro r hr
    unfold getDealsByStage at hr
    obtain ⟨st, hst, rfl⟩ := List.mem_map.mp hr
    have hmem : st ∈ ds.map (fun d => d.stage) := List.mem_dedup.mp hst
    obtain ⟨d, hd, rfl⟩ := List.mem_map.mp hmem
    have hdin : d ∈ ds.filter (fun d' => d'.stage == d.stage) :=
      List.mem_filter.mpr ⟨hd, by simp⟩
    exact List.length_pos_of_mem hdin

/-- C8, witness: a two-deal store with a single stage groups into one row of
count 2. -/
theorem c8_deals_by_stage_witness :
    1 ≤ (StageRow.mk "lead" 2 100).count :=
  (c8_deals_by_stage
      [SDeal.mk "lead" (some 100) ⟨2025, 0, 5, 0⟩,
       SDeal.mk "lead" none ⟨2025, 1, 6, 0⟩]).2
    (StageRow.mk "lead" 2 100)
    (by norm_num [getDealsByStage, List.dedup_cons_of_mem,
      List.dedup_cons_of_not_mem, List.filter])

end FlowSync
